import Mathlib

/-!
Verification of the react-scale responsiveness subsystem.

Shallow embedding of the source files:
  * `src/data/operations.ts`   — `tokenize`, `buildHaystack`, `filterProducts`,
    `filterProductIndices`, `sortProducts`
  * `src/data/generator.ts`    — `generateProducts`
  * `src/workers/dataWorker.ts` / `src/workers/protocol.ts` — the compute channel
  * `src/App.tsx`              — reducer, refs, worker-response effect, filter and
    worker-toggle handlers (the response sequencing logic)
  * `src/components/ProductList.tsx` — the progressive chunked mounting (`allChunks`)

Modelling conventions: JS numbers are embedded as `Nat` (integral fields) and `Rat`
(price/rating); at the magnitudes produced by the generator the JS float operations
round-trip exactly, so exact rational arithmetic is faithful.  JS strings are `String`;
`Array.prototype.sort` (guaranteed stable by the ECMAScript spec) is embedded as the
stable `List.mergeSort` with `le a b := comparator a b ≤ 0`.  React state updates are
explicit state passing; `useRef` cells are fields of the model state.  The `commits`
field is a history variable recording every `SET_DATASET` dispatch (it never influences
behaviour) so that "a result set is committed" is directly observable.
-/

namespace ReactScale

/-- Record type from `src/types/product.ts`. -/
structure Product where
  id : Nat
  name : String
  category : String
  price : Rat
  rating : Rat
  stock : Nat
  popularity : Nat
  trendScore : Nat
deriving DecidableEq

instance : Inhabited Product :=
  ⟨{ id := 0, name := "", category := "", price := 0, rating := 0,
     stock := 0, popularity := 0, trendScore := 0 }⟩

/-- Field enum, `keyof Product` — the sortable fields. -/
inductive ProductField where
  | id | name | category | price | rating | stock | popularity | trendScore
deriving DecidableEq

/-- The `"asc" | "desc"` sort direction. -/
inductive SortDir where
  | asc | desc
deriving DecidableEq

/-! ### String helpers: JS `String.prototype.includes` on char lists -/

/-- Tests whether `pat` starts `text` (char-list version, executable). -/
def charsStartWith : List Char → List Char → Bool
  | [], _ => true
  | _ :: _, [] => false
  | a :: as, b :: bs => a == b && charsStartWith as bs

/-- Tests whether `tok` occurs as a contiguous substring of `text`: JS `text.includes(tok)`. -/
def charsContain : List Char → List Char → Bool
  | tok, [] => tok.isEmpty
  | tok, c :: rest => charsStartWith tok (c :: rest) || charsContain tok rest

/-- JS `hay.includes(tok)`. -/
def strIncludes (hay tok : String) : Bool :=
  charsContain tok.toList hay.toList

/-- Computes `Math.round(x * m)` = `⌊x·m + 1/2⌋` (round half up, the JS behaviour for the
nonnegative values that occur here), computed on the reduced fraction:
`x·m + 1/2 = (2·m·num + den) / (2·den)` and `⌊p/q⌋ = Int.fdiv p q` for `q > 0`. -/
def jsRoundTimes (m : Nat) (x : Rat) : Int :=
  Int.fdiv (2 * (m : Int) * x.num + (x.den : Int)) (2 * (x.den : Int))

/-- JS `Math.round(x)`. -/
def jsRound (x : Rat) : Int :=
  jsRoundTimes 1 x

/-- Two-digit zero padding for the fractional part of `toFixed(2)`. -/
def natPad2 (n : Nat) : String :=
  if n < 10 then "0" ++ toString n else toString n

/-- JS `x.toFixed(2)` (round to nearest at the second decimal). -/
def toFixed2 (x : Rat) : String :=
  let c : Int := jsRoundTimes 100 x
  let sign := if c < 0 then "-" else ""
  let n := c.natAbs
  sign ++ toString (n / 100) ++ "." ++ natPad2 (n % 100)

/-- JS `x.toFixed(1)`. -/
def toFixed1 (x : Rat) : String :=
  let c : Int := jsRoundTimes 10 x
  let sign := if c < 0 then "-" else ""
  let n := c.natAbs
  sign ++ toString (n / 10) ++ "." ++ toString (n % 10)

/-- JS `s.toLowerCase()` (character-wise lowercasing). -/
def strToLower (s : String) : String :=
  String.mk (s.data.map Char.toLower)

/-! ### `src/data/operations.ts` -/

/-- Splitting on whitespace runs, returning the maximal nonempty non-whitespace
runs: `cur` accumulates the current token in reverse. -/
def splitWsAux : List Char → List Char → List String
  | cur, [] => if cur.isEmpty then [] else [String.mk cur.reverse]
  | cur, c :: rest =>
    if c.isWhitespace then
      if cur.isEmpty then splitWsAux [] rest
      else String.mk cur.reverse :: splitWsAux [] rest
    else splitWsAux (c :: cur) rest

/-- Function `tokenize`: `query.toLowerCase().trim().split(/\s+/).filter(Boolean)`.
Trimming, splitting on `\s+` and dropping empties together yield exactly the
maximal nonempty non-whitespace runs of the lowercased query. -/
def tokenize (query : String) : List String :=
  splitWsAux [] (strToLower query).data

/-- Function `buildHaystack`: the single lowercased haystack concatenating every displayable
field with separators — name, category, id, price (2 decimals), rating (1 decimal),
stock, popularity, trendScore. -/
def buildHaystack (p : Product) : String :=
  strToLower (p.name ++ " " ++ p.category ++ " " ++ toString p.id ++ " "
    ++ toFixed2 p.price ++ " " ++ toFixed1 p.rating ++ " "
    ++ toString p.stock ++ " " ++ toString p.popularity ++ " "
    ++ toString p.trendScore)

/-- The filter predicate used by both `filterProducts` and `filterProductIndices`:
category short-circuit, empty-token short-circuit, then AND over all tokens. -/
def productMatches (tokens : List String) (category : String) (p : Product) : Bool :=
  if (category != "") && (p.category != category) then false
  else if tokens.isEmpty then true
  else tokens.all fun token => strIncludes (buildHaystack p) token

/-- Function `filterProducts(products, query, category)`. -/
def filterProducts (products : List Product) (query category : String) : List Product :=
  let tokens := tokenize query
  products.filter (productMatches tokens category)

/-- Function `filterProductIndices(products, query, category)`: the index loop
`for (let i = 0; i < products.length; i++) ... indices.push(i)`, embedded as a
filter over the index range (the `Uint32Array` is a packed list of indices). -/
def filterProductIndices (products : List Product) (query category : String) : List Nat :=
  let tokens := tokenize query
  (List.range products.length).filter fun i =>
    productMatches tokens category (products.getD i default)

/-- The spec's matching predicate, written from the claim's words: the category is
unset or matches exactly, and every whitespace-separated token of the lowercased
query occurs as a contiguous substring of the lowercased haystack. -/
def matchesSpec (query category : String) (p : Product) : Prop :=
  (category = "" ∨ p.category = category) ∧
  ∀ t ∈ tokenize query, t.toList <:+: (buildHaystack p).toList

/-! ### Sorting (`sortProducts`) -/

/-- The comparator body of `sortProducts`:
`if (aVal < bVal) return dir === "asc" ? -1 : 1; if (aVal > bVal) ...; return 0`. -/
def jsCompare {α : Type} [LinearOrder α] (direction : SortDir) (a b : α) : Int :=
  if a < b then (match direction with | .asc => -1 | .desc => 1)
  else if b < a then (match direction with | .asc => 1 | .desc => -1)
  else 0

/-- The comparator applied to `a[field]` / `b[field]`. -/
def sortCmp (field : ProductField) (direction : SortDir) (a b : Product) : Int :=
  match field with
  | .id => jsCompare direction a.id b.id
  | .name => jsCompare direction a.name b.name
  | .category => jsCompare direction a.category b.category
  | .price => jsCompare direction a.price b.price
  | .rating => jsCompare direction a.rating b.rating
  | .stock => jsCompare direction a.stock b.stock
  | .popularity => jsCompare direction a.popularity b.popularity
  | .trendScore => jsCompare direction a.trendScore b.trendScore

/-- Relation "`a` does not have to come after `b`": comparator value ≤ 0.  A stable sort with
comparator `c` sorts with respect to exactly this relation. -/
def prodLe (field : ProductField) (direction : SortDir) (a b : Product) : Bool :=
  decide (sortCmp field direction a b ≤ 0)

/-- Function `sortProducts(products, field, direction)`: `[...products].sort(cmp)`.
`Array.prototype.sort` is stable per the ECMAScript spec, so it is embedded as the
stable `List.mergeSort` over `prodLe`. -/
def sortProducts (products : List Product) (field : ProductField) (direction : SortDir) :
    List Product :=
  products.mergeSort (prodLe field direction)

/-- Equality of two records' values in the given sort field (`a[field] === b[field]`). -/
def fieldEq (field : ProductField) (a b : Product) : Bool :=
  match field with
  | .id => a.id == b.id
  | .name => a.name == b.name
  | .category => a.category == b.category
  | .price => a.price == b.price
  | .rating => a.rating == b.rating
  | .stock => a.stock == b.stock
  | .popularity => a.popularity == b.popularity
  | .trendScore => a.trendScore == b.trendScore

/-! ### `src/data/generator.ts` -/

def ADJECTIVES : List String :=
  ["Premium", "Essential", "Advanced", "Classic", "Elite",
   "Ultra", "Smart", "Compact", "Deluxe", "Modern",
   "Professional", "Lightweight", "Durable", "Portable", "Versatile"]

def NOUNS : List String :=
  ["Widget", "Module", "Device", "Kit", "Pack",
   "Set", "System", "Unit", "Tool", "Bundle",
   "Series", "Edition", "Collection", "Suite", "Package"]

def CATEGORIES : List String :=
  ["Electronics", "Clothing", "Home & Garden", "Sports", "Books", "Toys"]

/-- Function `generateProducts(count)`.  The float expressions
`Math.round(((i*17)%99899+100)/100*100)/100` and the rating analogue round-trip the
integer numerator exactly at these magnitudes, so `price = ((i*17)%99899+100)/100`
and `rating = ((i*11)%41+10)/10` as exact rationals. -/
def generateProducts (count : Nat) : List Product :=
  (List.range count).map fun k =>
    let i := k + 1
    let adjIndex := (i * 7) % ADJECTIVES.length
    let nounIndex := (i * 13) % NOUNS.length
    let categoryIndex := (i - 1) % CATEGORIES.length
    let rating : Rat := (((i * 11) % 41 + 10 : Nat) : Rat) / 10
    let popularity := (i * 23) % 10001
    { id := i
      name := ADJECTIVES.getD adjIndex default ++ " " ++ NOUNS.getD nounIndex default
                ++ " " ++ toString i
      category := CATEGORIES.getD categoryIndex default
      price := (((i * 17) % 99899 + 100 : Nat) : Rat) / 100
      rating := rating
      stock := (i * 19) % 501
      popularity := popularity
      trendScore := (jsRound ((rating / 5) * ((popularity : Rat) / 10000) * 100)).toNat }

/-! ### `src/workers/protocol.ts` and `src/workers/dataWorker.ts` -/

/-- The `WorkerRequest` union. -/
inductive WorkerReq where
  | GENERATE (count : Nat)
  | FILTER (query category : String)
  | SORT (field : ProductField) (direction : SortDir)
deriving DecidableEq

/-- The messages `dataWorker.ts` can post.  `protocol.ts` declares the FILTER
response as `{ type: "FILTER", indices: Uint32Array }` (constructor
`FILTERindices`), but the worker's FILTER case actually posts
`{ type: "FILTER", data: filterProducts(...) }` — materialized records
(constructor `FILTERdata`).  Both shapes are present so that which one the code
produces is a provable fact. -/
inductive PostedMsg where
  | GENERATE (data : List Product)
  | FILTERdata (data : List Product)
  | FILTERindices (indices : List Nat)
  | SORT (data : List Product)
  | ERROR (msg : String)
deriving DecidableEq

/-- Does a posted message carry the packed index payload of `protocol.ts`'s
`FilterResponse` (rather than materialized records)? -/
def carriesIndexPayload : PostedMsg → Bool
  | .FILTERindices _ => true
  | _ => false

/-- Handler `self.onmessage` of `dataWorker.ts`: takes the worker-local `cachedDataset` and a
request, returns the updated cache and the posted response.  The `switch` has no
reachable `default` branch for the typed request union, and the pure embedded
operations cannot throw, so the `catch`/ERROR path does not arise here. -/
def workerOnMessage (cachedDataset : List Product) (request : WorkerReq) :
    List Product × PostedMsg :=
  match request with
  | .GENERATE count =>
      let data := generateProducts count
      (data, .GENERATE data)
  | .FILTER query category =>
      (cachedDataset, .FILTERdata (filterProducts cachedDataset query category))
  | .SORT field direction =>
      (cachedDataset, .SORT (sortProducts cachedDataset field direction))

/-! ### `src/App.tsx` — reducer, refs and handlers (the response sequencing logic) -/

/-- The reducer's `AppState`.  `lastOperationMs` holds `performance.now()` deltas;
wall-clock timing is irrelevant to every claim, so the model always feeds `0`. -/
structure AppState where
  workerEnabled : Bool
  virtualized : Bool
  displayedProducts : List Product
  lastOperationMs : Rat
  isLoading : Bool
deriving DecidableEq

/-- The `AppAction` union. -/
inductive AppAction where
  | SET_WORKER_MODE (value : Bool)
  | SET_VIRTUALIZATION (value : Bool)
  | SET_DATASET (products : List Product)
  | SET_LOADING (value : Bool)
  | SET_OPERATION_TIME (ms : Rat)
deriving DecidableEq

/-- Reducer `appReducer` (App.tsx lines 38–51). -/
def appReducer (state : AppState) (action : AppAction) : AppState :=
  match action with
  | .SET_WORKER_MODE value => { state with workerEnabled := value }
  | .SET_VIRTUALIZATION value => { state with virtualized := value }
  | .SET_DATASET products => { state with displayedProducts := products, isLoading := false }
  | .SET_LOADING value => { state with isLoading := value }
  | .SET_OPERATION_TIME ms => { state with lastOperationMs := ms }

/-- The component-level state: reducer state plus the `useRef` cells and the
`workerBusy` `useState`.  `sentRequests` logs every `workerDispatch` FILTER payload
(its positions are the requests' sequence numbers); `commits` logs every
`SET_DATASET` payload.  Both are history variables: they never influence behaviour. -/
structure AppModel where
  st : AppState
  fullDatasetRef : List Product
  filterRef : String × String
  ignoreNextWorkerResultRef : Bool
  workerBusy : Bool
  sentRequests : List (String × String)
  commits : List (List Product)
deriving DecidableEq

/-- Model of `dispatch(action)` — reduce the state, and record committed result sets. -/
def dispatchAction (m : AppModel) (action : AppAction) : AppModel :=
  { m with
    st := appReducer m.st action
    commits := match action with
      | .SET_DATASET products => m.commits ++ [products]
      | _ => m.commits }

/-- The `WorkerResponse` union as consumed by App.tsx's `lastResponse` effect:
the FILTER arm destructures `indices` (per `protocol.ts`). -/
inductive WorkerResponse where
  | GENERATE (data : List Product)
  | FILTER (indices : List Nat)
  | SORT (data : List Product)
  | ERROR (msg : String)
deriving DecidableEq

/-- The `lastResponse` effect (App.tsx lines 107–148).  Note the `switch` has **no
ERROR case**: an ERROR response runs none of the arms, so the model state is
returned unchanged — in particular `setWorkerBusy(false)` does not run. -/
def onWorkerResponse (m : AppModel) (response : WorkerResponse) : AppModel :=
  match response with
  | .GENERATE data =>
      let m1 := { m with fullDatasetRef := data }
      dispatchAction (dispatchAction m1 (.SET_DATASET data)) (.SET_OPERATION_TIME 0)
  | .FILTER indices =>
      let m1 := { m with workerBusy := false }
      if m1.ignoreNextWorkerResultRef then
        { m1 with ignoreNextWorkerResultRef := false }
      else
        let data := indices.map fun i => m1.fullDatasetRef.getD i default
        dispatchAction (dispatchAction m1 (.SET_DATASET data)) (.SET_OPERATION_TIME 0)
  | .SORT data =>
      let m1 := { m with workerBusy := false }
      if m1.ignoreNextWorkerResultRef then
        { m1 with ignoreNextWorkerResultRef := false }
      else
        dispatchAction (dispatchAction m1 (.SET_DATASET data)) (.SET_OPERATION_TIME 0)
  | .ERROR _ => m

/-- Handler `handleFilter(query, category)` (App.tsx lines 169–200).  When the worker is
enabled the FILTER request is posted (appended to `sentRequests`) and `workerBusy`
is set; otherwise the filter runs inline. -/
def handleFilter (m : AppModel) (query category : String) : AppModel :=
  let m1 := { m with filterRef := (query, category) }
  if m1.fullDatasetRef.isEmpty then m1
  else if query = "" ∧ category = "" then
    let m2 := { m1 with ignoreNextWorkerResultRef := true }
    dispatchAction (dispatchAction m2 (.SET_DATASET m2.fullDatasetRef)) (.SET_OPERATION_TIME 0)
  else
    let m2 := { m1 with ignoreNextWorkerResultRef := false }
    if m2.st.workerEnabled then
      { m2 with workerBusy := true, sentRequests := m2.sentRequests ++ [(query, category)] }
    else
      dispatchAction
        (dispatchAction m2 (.SET_DATASET (filterProducts m2.fullDatasetRef query category)))
        (.SET_OPERATION_TIME 0)

/-- The two effects keyed on `[state.workerEnabled]` (App.tsx lines 224–234 and
238–246): worker disabled → re-apply the current filter inline; worker enabled →
re-dispatch the active filter through the worker. -/
def runWorkerEnabledEffects (m : AppModel) : AppModel :=
  let m1 :=
    if m.st.workerEnabled = false ∧ m.fullDatasetRef ≠ [] ∧
        ¬(m.filterRef.1 = "" ∧ m.filterRef.2 = "") then
      dispatchAction
        (dispatchAction m (.SET_DATASET (filterProducts m.fullDatasetRef m.filterRef.1 m.filterRef.2)))
        (.SET_OPERATION_TIME 0)
    else m
  if m1.st.workerEnabled = true ∧ m1.fullDatasetRef ≠ [] ∧
      ¬(m1.filterRef.1 = "" ∧ m1.filterRef.2 = "") then
    { m1 with workerBusy := true, sentRequests := m1.sentRequests ++ [m1.filterRef] }
  else m1

/-- Handler `handleWorkerChange(value)` (App.tsx lines 209–220) followed by the effects that
re-run when `state.workerEnabled` changes (React only re-runs an effect when its
dependency array changed, hence the guard). -/
def handleWorkerChange (m : AppModel) (value : Bool) : AppModel :=
  let m1 :=
    if value = false then { m with ignoreNextWorkerResultRef := true, workerBusy := false }
    else { m with ignoreNextWorkerResultRef := false }
  let m2 := dispatchAction m1 (.SET_WORKER_MODE value)
  if value = m.st.workerEnabled then m2 else runWorkerEnabledEffects m2

/-! ### `src/components/ProductList.tsx` — progressive chunked mounting -/

def NAIVE_CAP : Nat := 5000

def CHUNK_SIZE : Nat := 500

/-- The chunking loop of `allChunks`:
`for (let i = 0; i < items.length; i += CHUNK_SIZE) result.push(items.slice(i, i + CHUNK_SIZE))`. -/
def chunksOf {α : Type} : List α → List (List α)
  | [] => []
  | x :: xs => (x :: xs).take CHUNK_SIZE :: chunksOf ((x :: xs).drop CHUNK_SIZE)
termination_by l => l.length
decreasing_by
  simp only [List.length_drop, List.length_cons, CHUNK_SIZE]
  omega

/-- Memo `allChunks` (ProductList.tsx lines 93–100): cap at `NAIVE_CAP`, then chunk. -/
def allChunks (products : List Product) : List (List Product) :=
  chunksOf (products.take NAIVE_CAP)

/-- The terminal banner's `capped` flag: `products.length > NAIVE_CAP`. -/
def capped (products : List Product) : Bool :=
  NAIVE_CAP < products.length

/-! ### Concrete data for witnesses and counterexamples -/

def pA : Product :=
  { id := 1, name := "alpha", category := "x", price := 1, rating := 1,
    stock := 0, popularity := 0, trendScore := 0 }

def pB : Product :=
  { id := 2, name := "beta", category := "x", price := 1, rating := 1,
    stock := 0, popularity := 0, trendScore := 0 }

def pC : Product :=
  { id := 3, name := "gamma", category := "y", price := 1, rating := 1,
    stock := 0, popularity := 0, trendScore := 0 }

def cexFull : List Product := [pA, pB, pC]

/-- A model state after the initial GENERATE committed `cexFull`, no filter active,
worker enabled, nothing in flight. -/
def cexM0 : AppModel :=
  { st := { workerEnabled := true, virtualized := true, displayedProducts := cexFull,
            lastOperationMs := 0, isLoading := false },
    fullDatasetRef := cexFull, filterRef := ("", ""), ignoreNextWorkerResultRef := false,
    workerBusy := false, sentRequests := [], commits := [] }

/-- Three FILTER requests dispatched in a row (the user typed "alpha", then "beta",
then "gamma" before any response returned): sequence numbers 1, 2, 3. -/
def cexAfterDispatches : AppModel :=
  handleFilter (handleFilter (handleFilter cexM0 "alpha" "") "beta" "") "gamma" ""

/-- The three responses then arrive in the order 2, 1, 3 (each carrying the index
array the worker computes for its request's query). -/
def cexTrace : AppModel :=
  onWorkerResponse (onWorkerResponse (onWorkerResponse cexAfterDispatches
    (.FILTER (filterProductIndices cexFull "beta" "")))
    (.FILTER (filterProductIndices cexFull "alpha" "")))
    (.FILTER (filterProductIndices cexFull "gamma" ""))

/-- A model state with a worker FILTER request for `("alpha", "")` in flight
(`workerBusy = true`). -/
def busyM : AppModel :=
  { st := { workerEnabled := true, virtualized := true, displayedProducts := cexFull,
            lastOperationMs := 0, isLoading := false },
    fullDatasetRef := cexFull, filterRef := ("alpha", ""), ignoreNextWorkerResultRef := false,
    workerBusy := true, sentRequests := [("alpha", "")], commits := [] }

/-- Same in-flight situation, used to instantiate the toggle-off scenario. -/
def mW4 : AppModel :=
  { st := { workerEnabled := true, virtualized := true, displayedProducts := cexFull,
            lastOperationMs := 0, isLoading := false },
    fullDatasetRef := cexFull, filterRef := ("alpha", ""), ignoreNextWorkerResultRef := false,
    workerBusy := true, sentRequests := [("alpha", "")], commits := [] }

/-! ## Theorems -/

/-! ### Substring containment bridges -/

theorem charsStartWith_iff : ∀ (pat text : List Char),
    charsStartWith pat text = true ↔ pat <+: text
  | [], _ => by simp [charsStartWith, List.nil_prefix]
  | _ :: _, [] => by simp [charsStartWith]
  | a :: as, b :: bs => by
    simp [charsStartWith, List.cons_prefix_cons, charsStartWith_iff as bs, and_comm]

theorem charsContain_iff : ∀ (tok text : List Char),
    charsContain tok text = true ↔ tok <:+: text
  | tok, [] => by simp [charsContain, List.isEmpty_iff]
  | tok, c :: rest => by
    simp [charsContain, charsStartWith_iff, charsContain_iff tok rest, List.infix_cons_iff]

theorem strIncludes_iff (hay tok : String) :
    strIncludes hay tok = true ↔ tok.toList <:+: hay.toList :=
  charsContain_iff _ _

/-- The code's filter predicate decides exactly the spec's matching relation. -/
theorem productMatches_iff (query category : String) (p : Product) :
    productMatches (tokenize query) category p = true ↔ matchesSpec query category p := by
  unfold productMatches matchesSpec
  by_cases hcat : category = "" ∨ p.category = category
  · have hguard : ((category != "") && (p.category != category)) = false := by
      rcases hcat with h | h <;> simp [h]
    rw [hguard]
    cases htok : tokenize query with
    | nil => simp [hcat]
    | cons t ts =>
      simp only [Bool.false_eq_true, if_false, List.isEmpty_cons, List.all_eq_true,
        strIncludes_iff]
      simp [hcat]
  · have hcat' : ¬category = "" ∧ ¬p.category = category := by tauto
    have hguard : ((category != "") && (p.category != category)) = true := by
      simp [hcat'.1, hcat'.2]
    rw [hguard]
    simp [hcat]

/-- C6: a record is in the output of `filterProducts` (equivalently, its index is in
the output of `filterProductIndices`) iff the category is unset or matches exactly
AND every whitespace-separated token of the lowercased query is a contiguous
substring of the single lowercased haystack built from name, category, id, price
(two decimals), rating (one decimal), stock, popularity and trendScore; matching is
case-insensitive substring containment, so "ele" matches "Electronics". -/
theorem c6_filter_characterization (products : List Product) (query category : String)
    (p : Product) :
    (p ∈ filterProducts products query category ↔ p ∈ products ∧ matchesSpec query category p)
    ∧ (∀ i : Nat, i ∈ filterProductIndices products query category ↔
        i < products.length ∧ matchesSpec query category (products.getD i default))
    ∧ strIncludes (strToLower "Electronics") "ele" = true := by
  refine ⟨?_, fun i => ?_, by decide⟩
  · simp only [filterProducts, List.mem_filter, productMatches_iff]
  · simp only [filterProductIndices, List.mem_filter, List.mem_range, productMatches_iff]

/-- C10: filtering preserves the input's relative order for every query: the index
array returned by `filterProductIndices` is strictly increasing, and
`filterProducts` returns a subsequence of the input collection. -/
theorem c10_filter_preserves_order (products : List Product) (query category : String) :
    List.Pairwise (· < ·) (filterProductIndices products query category)
    ∧ List.Sublist (filterProducts products query category) products := by
  constructor
  · exact List.Pairwise.sublist (List.filter_sublist _) (List.pairwise_lt_range _)
  · exact List.filter_sublist _

/-! ### Sorting: the comparator's order relation -/

theorem jsCompare_asc_le {α : Type} [LinearOrder α] (a b : α) :
    jsCompare SortDir.asc a b ≤ 0 ↔ a ≤ b := by
  unfold jsCompare
  rcases lt_trichotomy a b with h | h | h
  · rw [if_pos h]
    exact iff_of_true (by decide) h.le
  · subst h
    rw [if_neg (lt_irrefl a), if_neg (lt_irrefl a)]
    exact iff_of_true (by decide) le_rfl
  · rw [if_neg (asymm h), if_pos h]
    exact iff_of_false (by decide) (not_le.mpr h)

theorem jsCompare_desc_le {α : Type} [LinearOrder α] (a b : α) :
    jsCompare SortDir.desc a b ≤ 0 ↔ b ≤ a := by
  unfold jsCompare
  rcases lt_trichotomy a b with h | h | h
  · rw [if_pos h]
    exact iff_of_false (by decide) (not_le.mpr h)
  · subst h
    rw [if_neg (lt_irrefl a), if_neg (lt_irrefl a)]
    exact iff_of_true (by decide) le_rfl
  · rw [if_neg (asymm h), if_pos h]
    exact iff_of_true (by decide) h.le

/-- The comparator's "not after" relation is transitive. -/
theorem prodLe_trans (field : ProductField) (direction : SortDir) :
    ∀ (a b c : Product), prodLe field direction a b → prodLe field direction b c →
      prodLe field direction a c := by
  intro a b c
  unfold prodLe sortCmp
  cases field <;> cases direction <;>
    simp only [decide_eq_true_eq, jsCompare_asc_le, jsCompare_desc_le] <;>
    first
    | exact fun h1 h2 => le_trans h1 h2
    | exact fun h1 h2 => le_trans h2 h1

/-- The comparator's "not after" relation is total. -/
theorem prodLe_total (field : ProductField) (direction : SortDir) :
    ∀ (a b : Product), prodLe field direction a b || prodLe field direction b a := by
  intro a b
  unfold prodLe sortCmp
  cases field <;> cases direction <;>
    simp only [Bool.or_eq_true, decide_eq_true_eq, jsCompare_asc_le, jsCompare_desc_le] <;>
    exact le_total _ _

/-- Two records tied with a common reference record are mutually unordered. -/
theorem prodLe_of_fieldEq (field : ProductField) (direction : SortDir) {x y r : Product}
    (hx : fieldEq field x r = true) (hy : fieldEq field y r = true) :
    prodLe field direction x y = true := by
  unfold fieldEq at hx hy
  unfold prodLe sortCmp
  cases field <;> cases direction <;>
    simp only [beq_iff_eq] at hx hy <;>
    simp only [decide_eq_true_eq, jsCompare_asc_le, jsCompare_desc_le, hx, hy, le_refl]

/-- C7: `sortProducts` is stable — for every reference value of the sort field, the
subsequence of records whose field value equals it is unchanged by sorting, i.e.
records with equal sort-field values keep their relative input order. -/
theorem c7_sort_stable (products : List Product) (field : ProductField)
    (direction : SortDir) (r : Product) :
    (sortProducts products field direction).filter (fun p => fieldEq field p r)
      = products.filter (fun p => fieldEq field p r) := by
  unfold sortProducts
  have hall : ∀ x ∈ products.filter (fun p => fieldEq field p r),
      (fun p => fieldEq field p r) x = true :=
    fun x hx => (List.mem_filter.mp hx).2
  have hpw : (products.filter (fun p => fieldEq field p r)).Pairwise
      fun a b => prodLe field direction a b = true := by
    apply List.pairwise_of_forall_mem_list
    intro a ha b hb
    exact prodLe_of_fieldEq field direction (hall a ha) (hall b hb)
  have h1 : List.Sublist (products.filter (fun p => fieldEq field p r))
      (products.mergeSort (prodLe field direction)) :=
    List.sublist_mergeSort (prodLe_trans field direction) (prodLe_total field direction)
      hpw (List.filter_sublist products)
  have h2 : (products.filter (fun p => fieldEq field p r)).filter
      (fun p => fieldEq field p r) = products.filter (fun p => fieldEq field p r) :=
    List.filter_eq_self.mpr hall
  have h3 : List.Sublist (products.filter (fun p => fieldEq field p r))
      ((products.mergeSort (prodLe field direction)).filter (fun p => fieldEq field p r)) := by
    have h4 := h1.filter (fun p => fieldEq field p r)
    rwa [h2] at h4
  have h5 : ((products.mergeSort (prodLe field direction)).filter
        (fun p => fieldEq field p r)).length
      = (products.filter (fun p => fieldEq field p r)).length :=
    ((List.mergeSort_perm products (prodLe field direction)).filter
      (fun p => fieldEq field p r)).length_eq
  exact (h3.eq_of_length h5.symm).symm

/-- C8: sorting is idempotent — `sortProducts(sortProducts(C, S), S) = sortProducts(C, S)`
for every collection and sort spec. -/
theorem c8_sort_idempotent (products : List Product) (field : ProductField)
    (direction : SortDir) :
    sortProducts (sortProducts products field direction) field direction
      = sortProducts products field direction := by
  unfold sortProducts
  exact List.mergeSort_of_sorted
    (List.sorted_mergeSort (prodLe_trans field direction) (prodLe_total field direction)
      products)

/-! ### Progressive chunk mounting -/

theorem chunksOf_flatten {α : Type} : ∀ (l : List α), (chunksOf l).flatten = l
  | [] => by simp [chunksOf]
  | x :: xs => by
    rw [chunksOf, List.flatten_cons, chunksOf_flatten ((x :: xs).drop CHUNK_SIZE),
      List.take_append_drop]
termination_by l => l.length
decreasing_by
  simp only [List.length_drop, List.length_cons, CHUNK_SIZE]
  omega

theorem chunksOf_length_le {α : Type} : ∀ (l : List α), ∀ c ∈ chunksOf l,
    c.length ≤ CHUNK_SIZE
  | [] => by simp [chunksOf]
  | x :: xs => by
    intro c hc
    rw [chunksOf] at hc
    rcases List.mem_cons.mp hc with h | h
    · subst h
      exact List.length_take_le _ _
    · exact chunksOf_length_le ((x :: xs).drop CHUNK_SIZE) c h
termination_by l => l.length
decreasing_by
  simp only [List.length_drop, List.length_cons, CHUNK_SIZE]
  omega

/-- On a list whose length is an exact multiple of `CHUNK_SIZE`, `chunksOf` produces
exactly `k` chunks, all full. -/
theorem chunksOf_exact {α : Type} (k : Nat) : ∀ (l : List α), l.length = CHUNK_SIZE * k →
    (chunksOf l).length = k ∧ ∀ c ∈ chunksOf l, c.length = CHUNK_SIZE := by
  induction k with
  | zero =>
    intro l hl
    have hnil : l = [] := List.length_eq_zero.mp (by simpa using hl)
    subst hnil
    simp [chunksOf]
  | succ n ih =>
    intro l hl
    cases l with
    | nil => simp [CHUNK_SIZE, Nat.mul_succ] at hl
    | cons x xs =>
      have hle : CHUNK_SIZE ≤ (x :: xs).length := by
        rw [hl, Nat.mul_succ]
        omega
      have hdrop : ((x :: xs).drop CHUNK_SIZE).length = CHUNK_SIZE * n := by
        rw [List.length_drop, hl, Nat.mul_succ]
        omega
      obtain ⟨ih1, ih2⟩ := ih _ hdrop
      rw [chunksOf]
      refine ⟨by simp [ih1], ?_⟩
      intro c hc
      rcases List.mem_cons.mp hc with h | h
      · subst h
        rw [List.length_take]
        exact Nat.min_eq_left hle
      · exact ih2 c h

/-- C9: `allChunks` partitions the first `min(N, NAIVE_CAP)` items into contiguous,
ordered chunks of at most `CHUNK_SIZE` items whose lengths sum to exactly
`min(N, NAIVE_CAP)`; with a 100000-record result set it produces exactly 10 chunks
of 500 before the terminal capped state. -/
theorem c9_progressive_chunks (products : List Product) :
    (allChunks products).flatten = products.take NAIVE_CAP
    ∧ (∀ c ∈ allChunks products, c.length ≤ CHUNK_SIZE)
    ∧ ((allChunks products).map List.length).sum = min products.length NAIVE_CAP
    ∧ (products.length = 100000 →
        (allChunks products).length = 10
        ∧ (∀ c ∈ allChunks products, c.length = CHUNK_SIZE)
        ∧ capped products = true) := by
  refine ⟨chunksOf_flatten _, chunksOf_length_le _, ?_, ?_⟩
  · have h := congrArg List.length (chunksOf_flatten (products.take NAIVE_CAP))
    rw [List.length_flatten] at h
    rw [allChunks, h, List.length_take, Nat.min_comm]
  · intro h100
    have htake : (products.take NAIVE_CAP).length = CHUNK_SIZE * 10 := by
      rw [List.length_take, h100]
      decide
    obtain ⟨h1, h2⟩ := chunksOf_exact 10 _ htake
    refine ⟨h1, h2, ?_⟩
    unfold capped
    rw [h100]
    decide

/-- Witness for C9 at a concrete 100000-record result set. -/
theorem c9_progressive_chunks_witness :
    (allChunks (List.replicate 100000 pA)).length = 10 :=
  ((c9_progressive_chunks (List.replicate 100000 pA)).2.2.2
    (List.length_replicate 100000 pA)).1

/-! ### The compute channel and the response-handling effect -/

/-- C2: the worker's FILTER case posts `{ type: "FILTER", data: filterProducts(...) }`
— materialized `Product` records — not the packed index array that `protocol.ts`
declares (`FilterResponse.indices`) and that App.tsx's effect consumes.  Evaluated
at a concrete FILTER request against a non-empty cached dataset. -/
theorem c2_worker_posts_materialized_records :
    workerOnMessage cexFull (.FILTER "alpha" "")
        = (cexFull, .FILTERdata (filterProducts cexFull "alpha" ""))
    ∧ carriesIndexPayload (workerOnMessage cexFull (.FILTER "alpha" "")).2 = false
    ∧ filterProducts cexFull "alpha" "" = [pA] :=
  ⟨rfl, rfl, by decide⟩

/-- C5: an ERROR response leaves the displayed result set (and the whole commit
history) unchanged — a failed request never clears the display and never alters the
visible results. -/
theorem c5_error_preserves_display (m : AppModel) (msg : String) :
    (onWorkerResponse m (.ERROR msg)).st.displayedProducts = m.st.displayedProducts
    ∧ (onWorkerResponse m (.ERROR msg)).commits = m.commits :=
  ⟨rfl, rfl⟩

/-- C3: the `lastResponse` effect has no ERROR case, so an ERROR response arriving
while `workerBusy = true` leaves `workerBusy` stuck at `true` — evaluated at a
concrete in-flight state. -/
theorem c3_error_leaves_busy_stuck :
    busyM.workerBusy = true
    ∧ (onWorkerResponse busyM (.ERROR "Unknown worker error")).workerBusy = true :=
  ⟨rfl, rfl⟩

/-- C1 counterexample: requests 1, 2, 3 are dispatched (queries "alpha", "beta",
"gamma") and the responses arrive in the order 2, 1, 3.  The commit log after the
trace is `[[pB], [pA], [pC]]`: response 1 (`[pA]`) **is** committed (overwriting
response 2's result until response 3 arrives), refuting the claim that a response
older than the most recently dispatched request is never committed. -/
theorem c1_counterexample_stale_response_committed :
    cexAfterDispatches.sentRequests = [("alpha", ""), ("beta", ""), ("gamma", "")]
    ∧ cexTrace.commits = [[pB], [pA], [pC]]
    ∧ [pA] ∈ cexTrace.commits
    ∧ cexTrace.st.displayedProducts = [pC] :=
  ⟨by decide, by decide, by decide, by decide⟩

/-- C1 (amended): an arriving FILTER response is discarded iff the
discard-next-result flag (`ignoreNextWorkerResultRef`) is set when it arrives —
when the flag is clear the response is committed (even if an older request's), and
when the flag is set the response is dropped and the flag cleared. -/
theorem c1_amended_commit_iff_flag (m : AppModel) (idxs : List Nat) :
    (m.ignoreNextWorkerResultRef = false →
        (onWorkerResponse m (.FILTER idxs)).st.displayedProducts
            = idxs.map (fun i => m.fullDatasetRef.getD i default)
        ∧ (onWorkerResponse m (.FILTER idxs)).commits
            = m.commits ++ [idxs.map (fun i => m.fullDatasetRef.getD i default)])
    ∧ (m.ignoreNextWorkerResultRef = true →
        (onWorkerResponse m (.FILTER idxs)).st.displayedProducts = m.st.displayedProducts
        ∧ (onWorkerResponse m (.FILTER idxs)).commits = m.commits
        ∧ (onWorkerResponse m (.FILTER idxs)).ignoreNextWorkerResultRef = false) := by
  constructor <;> intro h <;>
    simp [onWorkerResponse, dispatchAction, appReducer, h]

/-- Witness for the amended C1 at a concrete state with the flag clear. -/
theorem c1_amended_commit_iff_flag_witness :
    (onWorkerResponse cexM0 (.FILTER [0])).st.displayedProducts = [pA] := by
  have h := (c1_amended_commit_iff_flag cexM0 [0]).1 rfl
  have h2 : ([0].map fun i => cexM0.fullDatasetRef.getD i default) = [pA] := by decide
  rw [h.1, h2]

/-- C4: toggling the compute channel off while a filter request is in flight sets
the discard-next-result flag, commits the inline recomputation of the current
filter as the displayed result set, and the late worker response is dropped without
reverting the display (nothing further is committed; the flag is consumed). -/
theorem c4_toggle_off_discards_late_response (m : AppModel) (q c : String)
    (idxs : List Nat)
    (hen : m.st.workerEnabled = true)
    (hfull : m.fullDatasetRef ≠ [])
    (hfilter : m.filterRef = (q, c))
    (hne : ¬(q = "" ∧ c = "")) :
    (handleWorkerChange m false).ignoreNextWorkerResultRef = true
    ∧ (handleWorkerChange m false).st.displayedProducts
        = filterProducts m.fullDatasetRef q c
    ∧ (onWorkerResponse (handleWorkerChange m false) (.FILTER idxs)).st.displayedProducts
        = filterProducts m.fullDatasetRef q c
    ∧ (onWorkerResponse (handleWorkerChange m false) (.FILTER idxs)).commits
        = (handleWorkerChange m false).commits
    ∧ (onWorkerResponse (handleWorkerChange m false) (.FILTER idxs)).ignoreNextWorkerResultRef
        = false := by
  simp [handleWorkerChange, runWorkerEnabledEffects, dispatchAction, appReducer,
    onWorkerResponse, hen, hfilter, hfull, hne]

/-- Witness for C4 at a concrete in-flight state. -/
theorem c4_toggle_off_discards_late_response_witness :
    (handleWorkerChange mW4 false).st.displayedProducts
        = filterProducts mW4.fullDatasetRef "alpha" ""
    ∧ (onWorkerResponse (handleWorkerChange mW4 false) (.FILTER [0])).commits
        = (handleWorkerChange mW4 false).commits := by
  have h := c4_toggle_off_discards_late_response mW4 "alpha" "" [0] rfl (by decide) rfl
    (by decide)
  exact ⟨h.2.1, h.2.2.2.1⟩

end ReactScale
